import Mathlib

/-!
Verification of the experiment-configuration schema and the
train/eval/predict control loop described in the design spec of the
OCP SchNet S2EF tutorial.  The trainer itself lives in an external
library; the definitions below model it from the spec, with the
notebook's printed configuration and training log as concrete evidence
for derived values (directory paths, epoch-progress numbers).
-/

namespace OCP

/-- Samples are treated as abstract structured values; an integer id
stands in for the structure contents. -/
abbrev Sample := Int

/-- Modelled from the spec: the `Task` sub-record of `RunConfig`
(dataset name, problem type, target labels, gradient target, free-atom
flags), with the fields of the notebook's `task` dictionary. -/
structure TaskSpec where
  dataset : String
  description : String
  type : String
  metric : String
  labels : List String
  grad_input : String
  train_on_free_atoms : Bool
  eval_on_free_atoms : Bool
deriving DecidableEq, Repr, Inhabited

/-- Modelled from the spec: `ModelSpec` — a model name plus a mapping
from hyperparameter name to value, not interpreted at this layer. -/
structure ModelSpec where
  name : String
  attributes : List (String × String)
deriving DecidableEq, Repr, Inhabited

/-- Modelled from the spec: one entry of `DatasetSpec` — a source
location string, an optional label-normalization flag and, if enabled,
a precomputed mean/standard-deviation pair. -/
structure DatasetSplit where
  src : String
  normalize_labels : Bool := false
  mean : Option Int := none
  std : Option Int := none
deriving DecidableEq, Repr, Inhabited

/-- Modelled from the spec: `OptimizerSpec` — batch sizes,
learning-rate schedule knobs, epoch budget, loss-term weighting. -/
structure OptimizerSpec where
  batch_size : Nat
  eval_batch_size : Nat
  num_workers : Nat
  lr_knobs : List (String × String)
  max_epochs : Nat
  force_coefficient : Int
deriving DecidableEq, Repr, Inhabited

/-- Modelled from the spec: the free-form metadata overrides passed to
`assemble` (identifier, base run directory, debug/visualization
booleans, print interval, seed, logger backend name, distributed rank,
mixed-precision flag, optional explicit timestamp). -/
structure MetadataOverrides where
  identifier : String
  timestamp : Option String := none
  run_dir : String
  is_debug : Bool
  is_vis : Bool
  print_every : Nat
  seed : Nat
  logger : String
  local_rank : Nat
  amp : Bool
deriving DecidableEq, Repr, Inhabited

/-- Modelled from the spec: `ConfigError` — malformed or incomplete
`RunConfig` input (wrong split count, missing normalization
statistics). -/
inductive ConfigError where
  | wrongSplitCount (n : Nat)
  | missingStats (idx : Nat)
deriving DecidableEq, Repr

/-- Modelled from the spec: the assembled, immutable `RunConfig`
record, mirroring the configuration the notebook prints
(`cmd`/`dataset`/`val_dataset`/`test_dataset`/`model`/`optim`/`task`). -/
structure RunConfig where
  task : TaskSpec
  model_name : String
  model_attributes : List (String × String)
  optim : OptimizerSpec
  train_dataset : DatasetSplit
  val_dataset : DatasetSplit
  test_dataset : DatasetSplit
  identifier : String
  timestamp : String
  checkpoint_dir : String
  logs_dir : String
  results_dir : String
  is_debug : Bool
  is_vis : Bool
  print_every : Nat
  seed : Nat
  logger : String
  local_rank : Nat
  amp : Bool
deriving DecidableEq, Repr, Inhabited

/-- A split passes normalization validation when `normalize_labels` is
off or both statistics are present. -/
def splitStatsOk (d : DatasetSplit) : Bool :=
  !d.normalize_labels || (d.mean.isSome && d.std.isSome)

/-- Derived checkpoint directory: `{base}checkpoints/{timestamp}-{identifier}`
(notebook evidence: `./checkpoints/2020-10-14-12-47-30-SchNet-example`). -/
def checkpointPath (base ts ident : String) : String :=
  base ++ "checkpoints/" ++ ts ++ "-" ++ ident

/-- Derived logs directory:
`{base}logs/{logger}/{timestamp}-{identifier}` (notebook evidence:
`./logs/tensorboard/2020-10-14-12-47-30-SchNet-example`). -/
def logsPath (base lg ts ident : String) : String :=
  base ++ "logs/" ++ lg ++ "/" ++ ts ++ "-" ++ ident

/-- Derived results directory: `{base}results/{timestamp}-{identifier}`
(notebook evidence: `./results/2020-10-14-12-47-30-SchNet-example`). -/
def resultsPath (base ts ident : String) : String :=
  base ++ "results/" ++ ts ++ "-" ++ ident

/-- Modelled from the spec: `assemble(task, model, optimizerSpec,
datasetSpecs, metadataOverrides) -> RunConfig`.  `datasetSpecs` must
contain exactly three entries (train, validation, test) in that fixed
order; a split with `normalize_labels` true must carry its mean/std
pair.  If no explicit timestamp is given one is taken from the wall
clock (`now`).  The three directory paths are derived deterministically
from the base directory, timestamp, identifier (and, for logs, the
logger backend name). -/
def assemble (task : TaskSpec) (model : ModelSpec) (optim : OptimizerSpec)
    (datasets : List DatasetSplit) (meta : MetadataOverrides) (now : String) :
    Except ConfigError RunConfig :=
  match datasets with
  | [tr, va, te] =>
    if !splitStatsOk tr then .error (.missingStats 0)
    else if !splitStatsOk va then .error (.missingStats 1)
    else if !splitStatsOk te then .error (.missingStats 2)
    else
      let ts := meta.timestamp.getD now
      .ok { task := task, model_name := model.name,
            model_attributes := model.attributes, optim := optim,
            train_dataset := tr, val_dataset := va, test_dataset := te,
            identifier := meta.identifier, timestamp := ts,
            checkpoint_dir := checkpointPath meta.run_dir ts meta.identifier,
            logs_dir := logsPath meta.run_dir meta.logger ts meta.identifier,
            results_dir := resultsPath meta.run_dir ts meta.identifier,
            is_debug := meta.is_debug, is_vis := meta.is_vis,
            print_every := meta.print_every, seed := meta.seed,
            logger := meta.logger, local_rank := meta.local_rank,
            amp := meta.amp }
  | other => .error (.wrongSplitCount other.length)

/-- The effective timestamp used during assembly. -/
def effTimestamp (meta : MetadataOverrides) (now : String) : String :=
  meta.timestamp.getD now

/-! ## The experiment runner, modelled from the spec (§4.2, §6, §7) -/

/-- Modelled from the spec: the external model/dataset registries,
reduced to the sets of names they can resolve. -/
structure Registry where
  models : List String
  datasets : List String
deriving DecidableEq, Repr

/-- Modelled from the spec: errors surfaced by `train()`/`predict()`.
The `config` variant exists only to state that it is never produced
mid-run. -/
inductive RunError where
  | unknownModel (name : String)
  | unknownDataset (name : String)
  | config (e : ConfigError)
deriving DecidableEq, Repr

/-- Mutable trainer state: the model parameters (abstracted to one
integer fingerprint), the learning-rate schedule position and the
optimizer step counter. -/
structure TrainerState where
  params : Int
  lrStep : Nat
  optimSteps : Nat
deriving DecidableEq, Repr, Inhabited

/-- One training iteration: the external update rule changes the
parameters, and both the learning-rate schedule and the optimizer step
counter advance. -/
def trainStep (upd : Int → List Sample → Int) (st : TrainerState)
    (batch : List Sample) : TrainerState :=
  { params := upd st.params batch, lrStep := st.lrStep + 1,
    optimSteps := st.optimSteps + 1 }

/-- Split a data source into batches of size `B` in iteration order. -/
def chunkList (B : Nat) (l : List Sample) : List (List Sample) :=
  if hc : l = [] ∨ B = 0 then []
  else l.take B :: chunkList B (l.drop B)
termination_by l.length
decreasing_by
  simp only [not_or] at hc
  have h1 : l.length ≠ 0 := fun hl => hc.1 (List.eq_nil_of_length_eq_zero hl)
  simp only [List.length_drop]
  omega

/-- One forward-only evaluation step on a batch: reads the parameters,
produces a metric contribution, leaves the state untouched. -/
def evalBatchStep (f : Int → Sample → Int) (st : TrainerState)
    (b : List Sample) : TrainerState × Int :=
  (st, (b.map (f st.params)).sum)

/-- An evaluation pass over a list of batches, threading the trainer
state through each forward-only step and accumulating the metric. -/
def runEvalPass (f : Int → Sample → Int) (st : TrainerState) :
    List (List Sample) → TrainerState × Int
  | [] => (st, 0)
  | b :: bs =>
    let (st1, m1) := evalBatchStep f st b
    let (st2, m2) := runEvalPass f st1 bs
    (st2, m1 + m2)

/-- Output of the inference phase: a list of scalar energy predictions
paired with a list of per-structure force arrays, positionally aligned
with the data source's iteration order. -/
structure PredictionBatch where
  energy : List Int
  forces : List (List Int)
deriving DecidableEq, Repr, Inhabited

/-- One forward-only prediction step on a batch: reads the parameters,
produces the batch's energies and forces, leaves the state untouched. -/
def predictBatchStep (fE : Int → Sample → Int) (fF : Int → Sample → List Int)
    (st : TrainerState) (b : List Sample) :
    TrainerState × List Int × List (List Int) :=
  (st, b.map (fE st.params), b.map (fF st.params))

/-- The prediction pass: iterate the batched data source exactly once,
threading the trainer state through forward-only steps and accumulating
the `PredictionBatch` in iteration order. -/
def runPredict (fE : Int → Sample → Int) (fF : Int → Sample → List Int)
    (st : TrainerState) : List (List Sample) → TrainerState × PredictionBatch
  | [] => (st, ⟨[], []⟩)
  | b :: bs =>
    let (st1, es, fs) := predictBatchStep fE fF st b
    let (st2, rest) := runPredict fE fF st1 bs
    (st2, ⟨es ++ rest.energy, fs ++ rest.forces⟩)

/-- Which split an evaluation pass ran on. -/
inductive EvalSplit where
  | val
  | test
deriving DecidableEq, Repr

/-- Observable events of a run: one per training iteration, one per
periodic metrics snapshot, one per evaluation pass.  Each event records
the number of completed training iterations at emission time and the
fractional epoch progress `completed / iterations_per_epoch`. -/
inductive Event where
  | step (iter : Nat) (progress : ℚ)
  | snapshot (iter : Nat) (progress : ℚ) (loss : Int)
  | evalPass (s : EvalSplit) (iter : Nat) (progress : ℚ) (metrics : Int)
deriving DecidableEq, Repr

/-- Completed-iteration count recorded in an event. -/
def Event.iterOf : Event → Nat
  | .step i _ => i
  | .snapshot i _ _ => i
  | .evalPass _ i _ _ => i

/-- Fractional epoch progress recorded in an event. -/
def Event.progOf : Event → ℚ
  | .step _ p => p
  | .snapshot _ p _ => p
  | .evalPass _ _ p _ => p

/-- The training iterations of one epoch: for each batch perform a
training step, emit a `step` event, and every `print_every` iterations
emit a metrics `snapshot` whose progress is
`completed_iterations / iterations_per_epoch` (`k`). -/
def runIters (upd : Int → List Sample → Int) (lossF : Int → List Sample → Int)
    (pe k : Nat) (st : TrainerState) (c : Nat) :
    List (List Sample) → TrainerState × Nat × List Event
  | [] => (st, c, [])
  | b :: bs =>
    let st1 := trainStep upd st b
    let c1 := c + 1
    let snaps := if 0 < pe ∧ c1 % pe = 0 then
      [Event.snapshot c1 ((c1 : ℚ) / (k : ℚ)) (lossF st1.params b)] else []
    let (st2, c2, evs) := runIters upd lossF pe k st1 c1 bs
    (st2, c2, Event.step c1 ((c1 : ℚ) / (k : ℚ)) :: (snaps ++ evs))

/-- One full epoch: the training iterations over the train batches
followed by the end-of-epoch validation pass (forward-only), which
emits a `val` evaluation event. -/
def runOneEpoch (upd lossF : Int → List Sample → Int)
    (evalF : Int → Sample → Int) (pe k : Nat)
    (trainBatches valBatches : List (List Sample)) (st : TrainerState)
    (c : Nat) : TrainerState × Nat × List Event :=
  let (st1, c1, evs) := runIters upd lossF pe k st c trainBatches
  let (st2, m) := runEvalPass evalF st1 valBatches
  (st2, c1, evs ++ [Event.evalPass .val c1 ((c1 : ℚ) / (k : ℚ)) m])

/-- The epoch loop: run `epochs` epochs, the completed-iteration count
continuing to increment across epoch boundaries. -/
def runEpochs (upd lossF : Int → List Sample → Int)
    (evalF : Int → Sample → Int) (pe k : Nat)
    (trainBatches valBatches : List (List Sample)) (st : TrainerState)
    (c : Nat) : Nat → TrainerState × Nat × List Event
  | 0 => (st, c, [])
  | e + 1 =>
    let (st1, c1, evs1) :=
      runOneEpoch upd lossF evalF pe k trainBatches valBatches st c
    let (st2, c2, evs2) :=
      runEpochs upd lossF evalF pe k trainBatches valBatches st1 c1 e
    (st2, c2, evs1 ++ evs2)

/-- The body of `train()` once resolution has succeeded: batch the
train split by `batch_size` and the validation/test splits by
`eval_batch_size`, run the epoch loop for `max_epochs` epochs, then run
the final test-split evaluation pass (same evaluation code path as
validation, different data source). -/
def trainBody (cfg : RunConfig) (upd lossF : Int → List Sample → Int)
    (evalF : Int → Sample → Int)
    (trainData valData testData : List Sample) (st : TrainerState) :
    TrainerState × List Event :=
  let trainBatches := chunkList cfg.optim.batch_size trainData
  let k := trainBatches.length
  let valBatches := chunkList cfg.optim.eval_batch_size valData
  let (st1, c1, evs) := runEpochs upd lossF evalF cfg.print_every k
    trainBatches valBatches st 0 cfg.optim.max_epochs
  let (st2, mTest) :=
    runEvalPass evalF st1 (chunkList cfg.optim.eval_batch_size testData)
  (st2, evs ++ [Event.evalPass .test c1 ((c1 : ℚ) / (k : ℚ)) mTest])

/-- Modelled from the spec: `train()`.  The named model and dataset are
resolved against the external registries first; an unresolvable name
fails fast with a resolution error before any iteration.  Otherwise the
epoch loop runs, followed by the final validation and test evaluation
passes. -/
def trainRun (reg : Registry) (cfg : RunConfig)
    (upd lossF : Int → List Sample → Int) (evalF : Int → Sample → Int)
    (trainData valData testData : List Sample) (st : TrainerState) :
    Except RunError (TrainerState × List Event) :=
  if reg.models.contains cfg.model_name = false then
    .error (.unknownModel cfg.model_name)
  else if reg.datasets.contains cfg.task.dataset = false then
    .error (.unknownDataset cfg.task.dataset)
  else
    .ok (trainBody cfg upd lossF evalF trainData valData testData st)

/-- Modelled from the spec: `predict(dataSource)`.  Resolution happens
first, as for `train()`; then the data source is iterated exactly once
in batches of `eval_batch_size`, computing forward-only outputs and no
parameter update. -/
def predictRun (reg : Registry) (cfg : RunConfig)
    (fE : Int → Sample → Int) (fF : Int → Sample → List Int)
    (st : TrainerState) (dataSource : List Sample) :
    Except RunError (TrainerState × PredictionBatch) :=
  if reg.models.contains cfg.model_name = false then
    .error (.unknownModel cfg.model_name)
  else if reg.datasets.contains cfg.task.dataset = false then
    .error (.unknownDataset cfg.task.dataset)
  else
    .ok (runPredict fE fF st (chunkList cfg.optim.eval_batch_size dataSource))

/-- Number of training-iteration (`step`) events in a trace. -/
def stepCount (evs : List Event) : Nat :=
  (evs.filter fun e => match e with | .step _ _ => true | _ => false).length

/-- Iteration numbers of the `step` events, in trace order. -/
def stepIters (evs : List Event) : List Nat :=
  evs.filterMap fun e => match e with | .step i _ => some i | _ => none

/-- Iteration numbers of the metrics `snapshot` events, in trace order. -/
def snapIters (evs : List Event) : List Nat :=
  evs.filterMap fun e => match e with | .snapshot i _ _ => some i | _ => none

/-- Metric values of the validation evaluation events, in trace order. -/
def valMetrics (evs : List Event) : List Int :=
  evs.filterMap fun e =>
    match e with | .evalPass .val _ _ m => some m | _ => none

/-- Metric values of the test evaluation events, in trace order. -/
def testMetrics (evs : List Event) : List Int :=
  evs.filterMap fun e =>
    match e with | .evalPass .test _ _ m => some m | _ => none

/-- The events of a run result (empty on error). -/
def evsOf (r : Except RunError (TrainerState × List Event)) : List Event :=
  match r with
  | .ok (_, evs) => evs
  | .error _ => []

/-! ## Concrete fixtures from the notebook's configuration cells -/

/-- The notebook's `task` dictionary. -/
def task0 : TaskSpec :=
  { dataset := "trajectory_lmdb",
    description := "Regressing to energies and forces for DFT trajectories from OCP",
    type := "regression", metric := "mae", labels := ["potential energy"],
    grad_input := "atomic forces", train_on_free_atoms := true,
    eval_on_free_atoms := true }

/-- The notebook's `model` dictionary (hyperparameters uninterpreted). -/
def model0 : ModelSpec :=
  { name := "schnet",
    attributes := [("hidden_channels", "1024"), ("num_filters", "256"),
      ("num_interactions", "3"), ("num_gaussians", "200"), ("cutoff", "6.0")] }

/-- The notebook's `optimizer` dictionary. -/
def optim0 : OptimizerSpec :=
  { batch_size := 16, eval_batch_size := 8, num_workers := 64,
    lr_knobs := [("lr_initial", "0.0001"), ("lr_gamma", "0.1"),
      ("warmup_epochs", "10"), ("warmup_factor", "0.2")],
    max_epochs := 1, force_coefficient := 100 }

/-- One dataset split as in the notebook (`train_src` for all three). -/
def split0 : DatasetSplit := { src := "/home/mshuaibi/projects/ocp/data/train" }

/-- The notebook's three-way dataset list. -/
def dataset0 : List DatasetSplit := [split0, split0, split0]

/-- A split demanding label normalization without resolvable
statistics. -/
def splitBad : DatasetSplit :=
  { src := "/home/mshuaibi/projects/ocp/data/train", normalize_labels := true }

/-- The notebook's trainer keyword arguments, with the timestamp of the
recorded run. -/
def meta0 : MetadataOverrides :=
  { identifier := "SchNet-example", timestamp := some "2020-10-14-12-47-30",
    run_dir := "./", is_debug := false, is_vis := false, print_every := 10,
    seed := 0, logger := "tensorboard", local_rank := 0, amp := false }

/-- The configuration assembled from the notebook fixtures. -/
def cfg0 : RunConfig :=
  (assemble task0 model0 optim0 dataset0 meta0 "now0").toOption.getD default

/-- The same assembly with the wandb logger backend instead. -/
def cfgW : RunConfig :=
  (assemble task0 model0 optim0 dataset0 { meta0 with logger := "wandb" }
    "now0").toOption.getD default

/-- A registry resolving the notebook's model and dataset names. -/
def reg0 : Registry :=
  { models := ["schnet"], datasets := ["trajectory_lmdb"] }

/-- A registry resolving nothing. -/
def regEmpty : Registry := { models := [], datasets := [] }

/-- A concrete trainer state for witnesses. -/
def st0 : TrainerState := { params := 7, lrStep := 3, optimSteps := 5 }

/-- A concrete parameter-update rule for witnesses. -/
def upd0 : Int → List Sample → Int := fun p b => p + b.sum

/-- A concrete loss function for witnesses. -/
def loss0 : Int → List Sample → Int := fun p b => p - b.sum

/-- A concrete per-sample evaluation function for witnesses. -/
def eval0 : Int → Sample → Int := fun p s => p * s

/-- A concrete per-sample energy head for witnesses. -/
def fE0 : Int → Sample → Int := fun p s => p + s

/-- A concrete per-sample forces head for witnesses. -/
def fF0 : Int → Sample → List Int := fun p s => [p, s, p - s]

/-- A small concrete data source for witnesses. -/
def data0 : List Sample := [1, 2, 3]

/-! ## Inversion lemmas for `assemble` -/

theorem assemble_ok_paths {t : TaskSpec} {m : ModelSpec} {o : OptimizerSpec}
    {ds : List DatasetSplit} {meta : MetadataOverrides} {now : String}
    {cfg : RunConfig} (h : assemble t m o ds meta now = Except.ok cfg) :
    cfg.checkpoint_dir =
      checkpointPath meta.run_dir (effTimestamp meta now) meta.identifier ∧
    cfg.logs_dir =
      logsPath meta.run_dir meta.logger (effTimestamp meta now) meta.identifier ∧
    cfg.results_dir =
      resultsPath meta.run_dir (effTimestamp meta now) meta.identifier := by
  match ds with
  | [] => simp [assemble] at h
  | [a] => simp [assemble] at h
  | [a, b] => simp [assemble] at h
  | a :: b :: c :: d :: tl => simp [assemble] at h
  | [a, b, c] =>
    simp only [assemble] at h
    split_ifs at h
    all_goals simp only [Except.ok.injEq] at h
    subst h
    exact ⟨rfl, rfl, rfl⟩

theorem assemble_three_fields {t : TaskSpec} {m : ModelSpec}
    {o : OptimizerSpec} {a b c : DatasetSplit} {meta : MetadataOverrides}
    {now : String} {cfg : RunConfig}
    (h : assemble t m o [a, b, c] meta now = Except.ok cfg) :
    cfg.train_dataset = a ∧ cfg.val_dataset = b ∧ cfg.test_dataset = c := by
  simp only [assemble] at h
  split_ifs at h
  all_goals simp only [Except.ok.injEq] at h
  subst h
  exact ⟨rfl, rfl, rfl⟩

/-- C1: assembling the run configuration derives the three directory
paths (checkpoints, logs, results) as pure, deterministic functions of
the identifier, the effective timestamp and the base run directory:
with the tensorboard logger category of the claim, each path has the
form `{base}{category}/{timestamp}-{identifier}`, and two assemblies
that agree on identifier, timestamp and base directory (possibly
differing in every other section) yield identical paths. -/
theorem assemble_paths_deterministic
    (t1 t2 : TaskSpec) (m1 m2 : ModelSpec) (o1 o2 : OptimizerSpec)
    (ds1 ds2 : List DatasetSplit) (meta1 meta2 : MetadataOverrides)
    (now1 now2 : String) (c1 c2 : RunConfig)
    (h1 : assemble t1 m1 o1 ds1 meta1 now1 = Except.ok c1)
    (h2 : assemble t2 m2 o2 ds2 meta2 now2 = Except.ok c2)
    (hid : meta1.identifier = meta2.identifier)
    (hts : effTimestamp meta1 now1 = effTimestamp meta2 now2)
    (hbase : meta1.run_dir = meta2.run_dir)
    (hlog1 : meta1.logger = "tensorboard")
    (hlog2 : meta2.logger = "tensorboard") :
    (c1.checkpoint_dir =
        meta1.run_dir ++ "checkpoints/" ++ effTimestamp meta1 now1 ++ "-" ++
          meta1.identifier ∧
      c1.logs_dir =
        meta1.run_dir ++ "logs/tensorboard/" ++ effTimestamp meta1 now1 ++
          "-" ++ meta1.identifier ∧
      c1.results_dir =
        meta1.run_dir ++ "results/" ++ effTimestamp meta1 now1 ++ "-" ++
          meta1.identifier) ∧
    c1.checkpoint_dir = c2.checkpoint_dir ∧ c1.logs_dir = c2.logs_dir ∧
      c1.results_dir = c2.results_dir := by
  obtain ⟨p1, l1, r1⟩ := assemble_ok_paths h1
  obtain ⟨p2, l2, r2⟩ := assemble_ok_paths h2
  rw [p1, l1, r1, p2, l2, r2, hid, hts, hbase, hlog1, hlog2]
  refine ⟨⟨rfl, ?_, rfl⟩, rfl, rfl, rfl⟩
  have hfold : ∀ s : String,
      "logs/" ++ ("tensorboard" ++ ("/" ++ s)) = "logs/tensorboard/" ++ s := by
    intro s
    rw [← String.append_assoc, ← String.append_assoc]
    rfl
  simp only [logsPath, String.append_assoc]
  rw [hfold]

/-- C5: `assemble` fails with a `ConfigError` reporting the wrong split
count whenever the dataset list does not have exactly three entries,
and when exactly three entries are given they become the train,
validation and test splits in that fixed order. -/
theorem assemble_split_count (t : TaskSpec) (m : ModelSpec)
    (o : OptimizerSpec) (ds : List DatasetSplit) (meta : MetadataOverrides)
    (now : String) (hn : ds.length ≠ 3) :
    assemble t m o ds meta now =
      Except.error (ConfigError.wrongSplitCount ds.length) ∧
    ∀ a b c cfg, assemble t m o [a, b, c] meta now = Except.ok cfg →
      cfg.train_dataset = a ∧ cfg.val_dataset = b ∧ cfg.test_dataset = c := by
  refine ⟨?_, fun a b c cfg h => assemble_three_fields h⟩
  match ds with
  | [] => rfl
  | [a] => rfl
  | [a, b] => rfl
  | [a, b, c] => exact absurd rfl hn
  | a :: b :: c :: d :: tl => rfl

/-- C6: `assemble` fails with a `ConfigError` for a missing
normalization statistic whenever some split has `normalize_labels`
set but its mean/std cannot be resolved; and such config errors are
raised only during assembly — neither `train()` nor `predict()` ever
returns a config error mid-run. -/
theorem assemble_missing_stats (t : TaskSpec) (m : ModelSpec)
    (o : OptimizerSpec) (a b c : DatasetSplit) (meta : MetadataOverrides)
    (now : String)
    (hbad : splitStatsOk a = false ∨ splitStatsOk b = false ∨
      splitStatsOk c = false) :
    (∃ i, i < 3 ∧ assemble t m o [a, b, c] meta now =
      Except.error (ConfigError.missingStats i)) ∧
    (∀ reg cfg upd lossF evalF td vd ted st e,
      trainRun reg cfg upd lossF evalF td vd ted st = Except.error e →
        ∀ ce, e ≠ RunError.config ce) ∧
    (∀ reg cfg fE fF st dsrc e,
      predictRun reg cfg fE fF st dsrc = Except.error e →
        ∀ ce, e ≠ RunError.config ce) := by
  refine ⟨?_, ?_, ?_⟩
  · by_cases ha : splitStatsOk a = false
    · exact ⟨0, by omega, by simp [assemble, ha]⟩
    · simp only [Bool.not_eq_false] at ha
      by_cases hb : splitStatsOk b = false
      · exact ⟨1, by omega, by simp [assemble, ha, hb]⟩
      · simp only [Bool.not_eq_false] at hb
        have hc : splitStatsOk c = false := by
          rcases hbad with h | h | h
          · simp [ha] at h
          · simp [hb] at h
          · exact h
        exact ⟨2, by omega, by simp [assemble, ha, hb, hc]⟩
  · intro reg cfg upd lossF evalF td vd ted st e h ce
    simp only [trainRun] at h
    split_ifs at h
    all_goals simp only [Except.error.injEq] at h
    all_goals subst h
    all_goals simp
  · intro reg cfg fE fF st dsrc e h ce
    simp only [predictRun] at h
    split_ifs at h
    all_goals simp only [Except.error.injEq] at h
    all_goals subst h
    all_goals simp

/-- C9: the derived logs directory incorporates the configured logger
backend name as an intermediate path component
(`{base}logs/{logger}/{timestamp}-{identifier}`), so it depends on the
logger backend, while the checkpoints and results paths are unchanged
when only the logger changes. -/
theorem logs_dir_logger_dependence (t : TaskSpec) (m : ModelSpec)
    (o : OptimizerSpec) (ds : List DatasetSplit) (meta : MetadataOverrides)
    (lg' : String) (now : String) (c1 c2 : RunConfig)
    (h1 : assemble t m o ds meta now = Except.ok c1)
    (h2 : assemble t m o ds { meta with logger := lg' } now = Except.ok c2) :
    c1.logs_dir =
      meta.run_dir ++ "logs/" ++ meta.logger ++ "/" ++ effTimestamp meta now ++
        "-" ++ meta.identifier ∧
    c2.logs_dir =
      meta.run_dir ++ "logs/" ++ lg' ++ "/" ++ effTimestamp meta now ++
        "-" ++ meta.identifier ∧
    c1.checkpoint_dir = c2.checkpoint_dir ∧
    c1.results_dir = c2.results_dir := by
  obtain ⟨p1, l1, r1⟩ := assemble_ok_paths h1
  obtain ⟨p2, l2, r2⟩ := assemble_ok_paths h2
  rw [p1, l1, r1, p2, l2, r2]
  exact ⟨rfl, rfl, rfl, rfl⟩

/-- Witness for C1 at the notebook fixtures. -/
theorem assemble_paths_deterministic_witness :
    (cfg0.checkpoint_dir =
        meta0.run_dir ++ "checkpoints/" ++ effTimestamp meta0 "now0" ++ "-" ++
          meta0.identifier ∧
      cfg0.logs_dir =
        meta0.run_dir ++ "logs/tensorboard/" ++ effTimestamp meta0 "now0" ++
          "-" ++ meta0.identifier ∧
      cfg0.results_dir =
        meta0.run_dir ++ "results/" ++ effTimestamp meta0 "now0" ++ "-" ++
          meta0.identifier) ∧
    cfg0.checkpoint_dir = cfg0.checkpoint_dir ∧
      cfg0.logs_dir = cfg0.logs_dir ∧
      cfg0.results_dir = cfg0.results_dir :=
  assemble_paths_deterministic task0 task0 model0 model0 optim0 optim0
    dataset0 dataset0 meta0 meta0 "now0" "now0" cfg0 cfg0 rfl rfl rfl rfl rfl
    rfl rfl

/-- Witness for C5 at a two-entry dataset list. -/
theorem assemble_split_count_witness :
    assemble task0 model0 optim0 [split0, split0] meta0 "now0" =
      Except.error (ConfigError.wrongSplitCount [split0, split0].length) ∧
    ∀ a b c cfg,
      assemble task0 model0 optim0 [a, b, c] meta0 "now0" = Except.ok cfg →
        cfg.train_dataset = a ∧ cfg.val_dataset = b ∧ cfg.test_dataset = c :=
  assemble_split_count task0 model0 optim0 [split0, split0] meta0 "now0"
    (by decide)

/-- Witness for C6 at a split with `normalize_labels` but no
statistics. -/
theorem assemble_missing_stats_witness :
    (∃ i, i < 3 ∧
      assemble task0 model0 optim0 [splitBad, split0, split0] meta0 "now0" =
        Except.error (ConfigError.missingStats i)) ∧
    (∀ reg cfg upd lossF evalF td vd ted st e,
      trainRun reg cfg upd lossF evalF td vd ted st = Except.error e →
        ∀ ce, e ≠ RunError.config ce) ∧
    (∀ reg cfg fE fF st dsrc e,
      predictRun reg cfg fE fF st dsrc = Except.error e →
        ∀ ce, e ≠ RunError.config ce) :=
  assemble_missing_stats task0 model0 optim0 splitBad split0 split0 meta0
    "now0" (by decide)

/-- Witness for C9: the notebook assembly against the same assembly
with the wandb backend. -/
theorem logs_dir_logger_dependence_witness :
    cfg0.logs_dir =
      meta0.run_dir ++ "logs/" ++ meta0.logger ++ "/" ++
        effTimestamp meta0 "now0" ++ "-" ++ meta0.identifier ∧
    cfgW.logs_dir =
      meta0.run_dir ++ "logs/" ++ "wandb" ++ "/" ++
        effTimestamp meta0 "now0" ++ "-" ++ meta0.identifier ∧
    cfg0.checkpoint_dir = cfgW.checkpoint_dir ∧
    cfg0.results_dir = cfgW.results_dir :=
  logs_dir_logger_dependence task0 model0 optim0 dataset0 meta0 "wandb"
    "now0" cfg0 cfgW rfl rfl

/-! ## Batching lemmas -/

theorem chunkList_flatten {B : Nat} (hB : 0 < B) (l : List Sample) :
    (chunkList B l).flatten = l := by
  rw [chunkList]
  split
  next h =>
    rcases h with h | h
    · simp [h]
    · omega
  next h =>
    simp only [not_or] at h
    obtain ⟨hne, hBne⟩ := h
    simp only [List.flatten_cons]
    rw [chunkList_flatten hB (l.drop B), List.take_append_drop]
termination_by l.length
decreasing_by
  simp only [List.length_drop]
  have hpos : 0 < l.length := List.length_pos.mpr hne
  omega

theorem chunkList_length {B : Nat} (hB : 0 < B) (l : List Sample) :
    (chunkList B l).length = (l.length + B - 1) / B := by
  rw [chunkList]
  split
  next h =>
    rcases h with h | h
    · subst h
      simp only [List.length_nil, Nat.zero_add]
      have h2 : (B - 1) / B = 0 := Nat.div_eq_of_lt (by omega)
      omega
    · omega
  next h =>
    simp only [not_or] at h
    obtain ⟨hne, hBne⟩ := h
    have hpos : 0 < l.length := List.length_pos.mpr hne
    simp only [List.length_cons]
    rw [chunkList_length hB (l.drop B)]
    simp only [List.length_drop]
    rcases Nat.le_total l.length B with hle | hle
    · have h1 : l.length - B = 0 := by omega
      rw [h1]
      have h2 : (0 + B - 1) / B = 0 := Nat.div_eq_of_lt (by omega)
      have h3 : (l.length + B - 1) / B = 1 := by
        apply Nat.div_eq_of_lt_le
        · omega
        · omega
      omega
    · have h1 : l.length - B + B - 1 = l.length - 1 := by omega
      rw [h1]
      have h2 : l.length + B - 1 = (l.length - 1) + B := by omega
      rw [h2, Nat.add_div_right _ hB]
termination_by l.length
decreasing_by
  simp only [List.length_drop]
  omega

/-! ## Evaluation and prediction passes leave all trainer state alone -/

theorem runEvalPass_cons (f : Int → Sample → Int) (st : TrainerState)
    (b : List Sample) (bs : List (List Sample)) :
    runEvalPass f st (b :: bs) =
      ((runEvalPass f st bs).1,
        (b.map (f st.params)).sum + (runEvalPass f st bs).2) := rfl

theorem runEvalPass_state (f : Int → Sample → Int) (st : TrainerState)
    (bs : List (List Sample)) : (runEvalPass f st bs).1 = st := by
  induction bs with
  | nil => rfl
  | cons b bs ih => rw [runEvalPass_cons, ih]

theorem runPredict_cons (fE : Int → Sample → Int)
    (fF : Int → Sample → List Int) (st : TrainerState) (b : List Sample)
    (bs : List (List Sample)) :
    runPredict fE fF st (b :: bs) =
      ((runPredict fE fF st bs).1,
        ⟨b.map (fE st.params) ++ (runPredict fE fF st bs).2.energy,
          b.map (fF st.params) ++ (runPredict fE fF st bs).2.forces⟩) := rfl

theorem runPredict_state (fE : Int → Sample → Int)
    (fF : Int → Sample → List Int) (st : TrainerState)
    (bs : List (List Sample)) : (runPredict fE fF st bs).1 = st := by
  induction bs with
  | nil => rfl
  | cons b bs ih => rw [runPredict_cons, ih]

theorem runPredict_energy (fE : Int → Sample → Int)
    (fF : Int → Sample → List Int) (st : TrainerState)
    (bs : List (List Sample)) :
    (runPredict fE fF st bs).2.energy = bs.flatten.map (fE st.params) := by
  induction bs with
  | nil => rfl
  | cons b bs ih =>
    rw [runPredict_cons]
    simp only [List.flatten_cons, List.map_append, ih]

theorem runPredict_forces (fE : Int → Sample → Int)
    (fF : Int → Sample → List Int) (st : TrainerState)
    (bs : List (List Sample)) :
    (runPredict fE fF st bs).2.forces = bs.flatten.map (fF st.params) := by
  induction bs with
  | nil => rfl
  | cons b bs ih =>
    rw [runPredict_cons]
    simp only [List.flatten_cons, List.map_append, ih]

/-- C3: `predict(dataSource)` over a source of M samples iterates the
source exactly once and yields a `PredictionBatch` whose energy list
and forces list both have length M, aligned positionally with the
source's iteration order (element i is the forward output on sample i). -/
theorem predictRun_batch_spec (reg : Registry) (cfg : RunConfig)
    (fE : Int → Sample → Int) (fF : Int → Sample → List Int)
    (st : TrainerState) (ds : List Sample)
    (hm : reg.models.contains cfg.model_name = true)
    (hd : reg.datasets.contains cfg.task.dataset = true)
    (hB : 0 < cfg.optim.eval_batch_size) :
    (predictRun reg cfg fE fF st ds).map (fun p => p.2.energy) =
      Except.ok (ds.map (fE st.params)) ∧
    (predictRun reg cfg fE fF st ds).map (fun p => p.2.forces) =
      Except.ok (ds.map (fF st.params)) ∧
    (predictRun reg cfg fE fF st ds).map (fun p => p.2.energy.length) =
      Except.ok ds.length ∧
    (predictRun reg cfg fE fF st ds).map (fun p => p.2.forces.length) =
      Except.ok ds.length := by
  have he : (runPredict fE fF st
      (chunkList cfg.optim.eval_batch_size ds)).2.energy =
      ds.map (fE st.params) := by
    rw [runPredict_energy, chunkList_flatten hB]
  have hf : (runPredict fE fF st
      (chunkList cfg.optim.eval_batch_size ds)).2.forces =
      ds.map (fF st.params) := by
    rw [runPredict_forces, chunkList_flatten hB]
  have hm' : cfg.model_name ∈ reg.models := by simpa using hm
  have hd' : cfg.task.dataset ∈ reg.datasets := by simpa using hd
  simp [predictRun, hm', hd', Except.map, he, hf]

/-- Witness for C3 on a three-sample source with the notebook
configuration. -/
theorem predictRun_batch_spec_witness :
    (predictRun reg0 cfg0 fE0 fF0 st0 data0).map (fun p => p.2.energy) =
      Except.ok (data0.map (fE0 st0.params)) ∧
    (predictRun reg0 cfg0 fE0 fF0 st0 data0).map (fun p => p.2.forces) =
      Except.ok (data0.map (fF0 st0.params)) ∧
    (predictRun reg0 cfg0 fE0 fF0 st0 data0).map (fun p => p.2.energy.length) =
      Except.ok data0.length ∧
    (predictRun reg0 cfg0 fE0 fF0 st0 data0).map (fun p => p.2.forces.length) =
      Except.ok data0.length :=
  predictRun_batch_spec reg0 cfg0 fE0 fF0 st0 data0 (by decide) (by decide)
    (by decide)

/-- C4: `predict` performs zero parameter updates and mutates no
training-phase state: the full trainer state after the call equals the
state before it — the parameter fingerprint is unchanged, the
learning-rate schedule is not advanced and the optimizer step counter
does not change. -/
theorem predictRun_frame (reg : Registry) (cfg : RunConfig)
    (fE : Int → Sample → Int) (fF : Int → Sample → List Int)
    (st : TrainerState) (ds : List Sample)
    (hm : reg.models.contains cfg.model_name = true)
    (hd : reg.datasets.contains cfg.task.dataset = true) :
    (predictRun reg cfg fE fF st ds).map (fun p => p.1) = Except.ok st ∧
    (predictRun reg cfg fE fF st ds).map (fun p => p.1.params) =
      Except.ok st.params ∧
    (predictRun reg cfg fE fF st ds).map (fun p => p.1.lrStep) =
      Except.ok st.lrStep ∧
    (predictRun reg cfg fE fF st ds).map (fun p => p.1.optimSteps) =
      Except.ok st.optimSteps := by
  have hs : (runPredict fE fF st
      (chunkList cfg.optim.eval_batch_size ds)).1 = st :=
    runPredict_state fE fF st _
  have hm' : cfg.model_name ∈ reg.models := by simpa using hm
  have hd' : cfg.task.dataset ∈ reg.datasets := by simpa using hd
  simp [predictRun, hm', hd', Except.map, hs]

/-- Witness for C4 on a three-sample source with the notebook
configuration. -/
theorem predictRun_frame_witness :
    (predictRun reg0 cfg0 fE0 fF0 st0 data0).map (fun p => p.1) =
      Except.ok st0 ∧
    (predictRun reg0 cfg0 fE0 fF0 st0 data0).map (fun p => p.1.params) =
      Except.ok st0.params ∧
    (predictRun reg0 cfg0 fE0 fF0 st0 data0).map (fun p => p.1.lrStep) =
      Except.ok st0.lrStep ∧
    (predictRun reg0 cfg0 fE0 fF0 st0 data0).map (fun p => p.1.optimSteps) =
      Except.ok st0.optimSteps :=
  predictRun_frame reg0 cfg0 fE0 fF0 st0 data0 (by decide) (by decide)

/-- C7: when the named model or dataset cannot be resolved by the
registry, `train()` and `predict()` fail with one and the same
resolution error for every data source and every incoming state — the
failure happens before any iteration and the run makes no partial
progress (the error result carries no state and no events). -/
theorem run_resolution_fail_fast (reg : Registry) (cfg : RunConfig)
    (hbad : reg.models.contains cfg.model_name = false ∨
      reg.datasets.contains cfg.task.dataset = false) :
    ∃ e : RunError,
      (∀ upd lossF evalF trainData valData testData st,
        trainRun reg cfg upd lossF evalF trainData valData testData st =
          Except.error e) ∧
      (∀ fE fF st dataSource,
        predictRun reg cfg fE fF st dataSource = Except.error e) := by
  by_cases hm : reg.models.contains cfg.model_name = false
  · have hm' : ¬ cfg.model_name ∈ reg.models := by simpa using hm
    exact ⟨.unknownModel cfg.model_name,
      fun upd lossF evalF td vd ted st => by simp [trainRun, hm'],
      fun fE fF st dsrc => by simp [predictRun, hm']⟩
  · simp only [Bool.not_eq_false] at hm
    have hm' : cfg.model_name ∈ reg.models := by simpa using hm
    have hd : reg.datasets.contains cfg.task.dataset = false := by
      rcases hbad with h | h
      · rw [hm] at h
        exact absurd h (by simp)
      · exact h
    have hd' : ¬ cfg.task.dataset ∈ reg.datasets := by simpa using hd
    exact ⟨.unknownDataset cfg.task.dataset,
      fun upd lossF evalF td vd ted st => by simp [trainRun, hm', hd'],
      fun fE fF st dsrc => by simp [predictRun, hm', hd']⟩

/-- Witness for C7 against the empty registry. -/
theorem run_resolution_fail_fast_witness :
    ∃ e : RunError,
      (∀ upd lossF evalF trainData valData testData st,
        trainRun regEmpty cfg0 upd lossF evalF trainData valData testData st =
          Except.error e) ∧
      (∀ fE fF st dataSource,
        predictRun regEmpty cfg0 fE fF st dataSource = Except.error e) :=
  run_resolution_fail_fast regEmpty cfg0 (by decide)

/-! ## Trace lemmas for the training iterations of one epoch -/

@[simp] theorem stepIters_nil : stepIters [] = [] := rfl

@[simp] theorem stepIters_append (l1 l2 : List Event) :
    stepIters (l1 ++ l2) = stepIters l1 ++ stepIters l2 :=
  List.filterMap_append _ _ _

@[simp] theorem stepIters_cons_step (i : Nat) (p : ℚ) (l : List Event) :
    stepIters (Event.step i p :: l) = i :: stepIters l := rfl

@[simp] theorem stepIters_cons_snapshot (i : Nat) (p : ℚ) (m : Int)
    (l : List Event) : stepIters (Event.snapshot i p m :: l) = stepIters l :=
  rfl

@[simp] theorem stepIters_cons_evalPass (s : EvalSplit) (i : Nat) (p : ℚ)
    (m : Int) (l : List Event) :
    stepIters (Event.evalPass s i p m :: l) = stepIters l := rfl

@[simp] theorem snapIters_nil : snapIters [] = [] := rfl

@[simp] theorem snapIters_append (l1 l2 : List Event) :
    snapIters (l1 ++ l2) = snapIters l1 ++ snapIters l2 :=
  List.filterMap_append _ _ _

@[simp] theorem snapIters_cons_step (i : Nat) (p : ℚ) (l : List Event) :
    snapIters (Event.step i p :: l) = snapIters l := rfl

@[simp] theorem snapIters_cons_snapshot (i : Nat) (p : ℚ) (m : Int)
    (l : List Event) :
    snapIters (Event.snapshot i p m :: l) = i :: snapIters l := rfl

@[simp] theorem snapIters_cons_evalPass (s : EvalSplit) (i : Nat) (p : ℚ)
    (m : Int) (l : List Event) :
    snapIters (Event.evalPass s i p m :: l) = snapIters l := rfl

@[simp] theorem valMetrics_nil : valMetrics [] = [] := rfl

@[simp] theorem valMetrics_append (l1 l2 : List Event) :
    valMetrics (l1 ++ l2) = valMetrics l1 ++ valMetrics l2 :=
  List.filterMap_append _ _ _

@[simp] theorem valMetrics_cons_step (i : Nat) (p : ℚ) (l : List Event) :
    valMetrics (Event.step i p :: l) = valMetrics l := rfl

@[simp] theorem valMetrics_cons_snapshot (i : Nat) (p : ℚ) (m : Int)
    (l : List Event) :
    valMetrics (Event.snapshot i p m :: l) = valMetrics l := rfl

@[simp] theorem valMetrics_cons_val (i : Nat) (p : ℚ) (m : Int)
    (l : List Event) :
    valMetrics (Event.evalPass .val i p m :: l) = m :: valMetrics l := rfl

@[simp] theorem valMetrics_cons_test (i : Nat) (p : ℚ) (m : Int)
    (l : List Event) :
    valMetrics (Event.evalPass .test i p m :: l) = valMetrics l := rfl

@[simp] theorem testMetrics_nil : testMetrics [] = [] := rfl

@[simp] theorem testMetrics_append (l1 l2 : List Event) :
    testMetrics (l1 ++ l2) = testMetrics l1 ++ testMetrics l2 :=
  List.filterMap_append _ _ _

@[simp] theorem testMetrics_cons_step (i : Nat) (p : ℚ) (l : List Event) :
    testMetrics (Event.step i p :: l) = testMetrics l := rfl

@[simp] theorem testMetrics_cons_snapshot (i : Nat) (p : ℚ) (m : Int)
    (l : List Event) :
    testMetrics (Event.snapshot i p m :: l) = testMetrics l := rfl

@[simp] theorem testMetrics_cons_val (i : Nat) (p : ℚ) (m : Int)
    (l : List Event) :
    testMetrics (Event.evalPass .val i p m :: l) = testMetrics l := rfl

@[simp] theorem testMetrics_cons_test (i : Nat) (p : ℚ) (m : Int)
    (l : List Event) :
    testMetrics (Event.evalPass .test i p m :: l) = m :: testMetrics l := rfl

theorem runIters_cons (upd lossF : Int → List Sample → Int) (pe k : Nat)
    (st : TrainerState) (c : Nat) (b : List Sample)
    (bs : List (List Sample)) :
    runIters upd lossF pe k st c (b :: bs) =
      ((runIters upd lossF pe k (trainStep upd st b) (c + 1) bs).1,
       (runIters upd lossF pe k (trainStep upd st b) (c + 1) bs).2.1,
       Event.step (c + 1) (((c + 1 : Nat) : ℚ) / (k : ℚ)) ::
         ((if 0 < pe ∧ (c + 1) % pe = 0 then
             [Event.snapshot (c + 1) (((c + 1 : Nat) : ℚ) / (k : ℚ))
               (lossF (trainStep upd st b).params b)]
           else []) ++
          (runIters upd lossF pe k (trainStep upd st b) (c + 1) bs).2.2)) :=
  rfl

theorem runIters_count (upd lossF : Int → List Sample → Int) (pe k : Nat)
    (bs : List (List Sample)) : ∀ (st : TrainerState) (c : Nat),
    (runIters upd lossF pe k st c bs).2.1 = c + bs.length := by
  induction bs with
  | nil => intro st c; rfl
  | cons b bs ih =>
    intro st c
    rw [runIters_cons, ih]
    simp only [List.length_cons]
    omega

theorem runIters_stepIters (upd lossF : Int → List Sample → Int)
    (pe k : Nat) (bs : List (List Sample)) :
    ∀ (st : TrainerState) (c : Nat),
    stepIters (runIters upd lossF pe k st c bs).2.2 =
      List.range' (c + 1) bs.length := by
  induction bs with
  | nil => intro st c; rfl
  | cons b bs ih =>
    intro st c
    rw [runIters_cons]
    by_cases hsnap : 0 < pe ∧ (c + 1) % pe = 0 <;>
      simp [hsnap, ih (trainStep upd st b) (c + 1), List.range'_succ]

theorem runIters_snapIters (upd lossF : Int → List Sample → Int)
    {pe : Nat} (hpe : 0 < pe) (k : Nat) (bs : List (List Sample)) :
    ∀ (st : TrainerState) (c : Nat),
    snapIters (runIters upd lossF pe k st c bs).2.2 =
      (List.range' (c + 1) bs.length).filter (fun i => i % pe == 0) := by
  induction bs with
  | nil => intro st c; rfl
  | cons b bs ih =>
    intro st c
    rw [runIters_cons]
    by_cases hmod : (c + 1) % pe = 0
    · have hsnap : 0 < pe ∧ (c + 1) % pe = 0 := ⟨hpe, hmod⟩
      simp [hsnap, ih (trainStep upd st b) (c + 1), List.range'_succ,
        List.filter_cons, hmod]
    · have hsnap : ¬(0 < pe ∧ (c + 1) % pe = 0) := fun h => hmod h.2
      simp [hsnap, ih (trainStep upd st b) (c + 1), List.range'_succ,
        List.filter_cons, hmod]

theorem runIters_no_evals (upd lossF : Int → List Sample → Int)
    (pe k : Nat) (bs : List (List Sample)) :
    ∀ (st : TrainerState) (c : Nat),
    valMetrics (runIters upd lossF pe k st c bs).2.2 = [] ∧
    testMetrics (runIters upd lossF pe k st c bs).2.2 = [] := by
  induction bs with
  | nil => intro st c; exact ⟨rfl, rfl⟩
  | cons b bs ih =>
    intro st c
    rw [runIters_cons]
    obtain ⟨ihv, iht⟩ := ih (trainStep upd st b) (c + 1)
    by_cases hsnap : 0 < pe ∧ (c + 1) % pe = 0 <;> simp [hsnap, ihv, iht]

theorem runIters_prog (upd lossF : Int → List Sample → Int) (pe k : Nat)
    (bs : List (List Sample)) : ∀ (st : TrainerState) (c : Nat),
    ∀ e ∈ (runIters upd lossF pe k st c bs).2.2,
      e.progOf = (e.iterOf : ℚ) / (k : ℚ) := by
  induction bs with
  | nil => intro st c e he; simp [runIters] at he
  | cons b bs ih =>
    intro st c e he
    rw [runIters_cons] at he
    simp only [List.mem_cons, List.mem_append] at he
    rcases he with he | he | he
    · subst he; rfl
    · split at he
      · simp only [List.mem_singleton] at he
        subst he; rfl
      · simp at he
    · exact ih (trainStep upd st b) (c + 1) e he

theorem runIters_iter_bounds (upd lossF : Int → List Sample → Int)
    (pe k : Nat) (bs : List (List Sample)) :
    ∀ (st : TrainerState) (c : Nat),
    ∀ e ∈ (runIters upd lossF pe k st c bs).2.2,
      c + 1 ≤ e.iterOf ∧ e.iterOf ≤ c + bs.length := by
  induction bs with
  | nil => intro st c e he; simp [runIters] at he
  | cons b bs ih =>
    intro st c e he
    rw [runIters_cons] at he
    simp only [List.mem_cons, List.mem_append] at he
    simp only [List.length_cons]
    rcases he with he | he | he
    · subst he
      simp only [Event.iterOf]
      omega
    · split at he
      · simp only [List.mem_singleton] at he
        subst he
        simp only [Event.iterOf]
        omega
      · simp at he
    · have := ih (trainStep upd st b) (c + 1) e he
      omega

theorem chain_iterOf_append {l1 l2 : List Event} {n : Nat}
    (h1 : List.Chain' (fun a b => a.iterOf ≤ b.iterOf) l1)
    (h2 : List.Chain' (fun a b => a.iterOf ≤ b.iterOf) l2)
    (hb1 : ∀ e ∈ l1, e.iterOf ≤ n) (hb2 : ∀ e ∈ l2, n ≤ e.iterOf) :
    List.Chain' (fun a b => a.iterOf ≤ b.iterOf) (l1 ++ l2) := by
  rw [List.chain'_append]
  refine ⟨h1, h2, fun x hx y hy => ?_⟩
  exact le_trans (hb1 x (List.mem_of_mem_getLast? hx))
    (hb2 y (List.mem_of_mem_head? hy))

theorem runIters_chain (upd lossF : Int → List Sample → Int) (pe k : Nat)
    (bs : List (List Sample)) : ∀ (st : TrainerState) (c : Nat),
    List.Chain' (fun a b => a.iterOf ≤ b.iterOf)
      (runIters upd lossF pe k st c bs).2.2 := by
  induction bs with
  | nil => intro st c; simp [runIters]
  | cons b bs ih =>
    intro st c
    rw [runIters_cons]
    have hrest := ih (trainStep upd st b) (c + 1)
    have hbounds := runIters_iter_bounds upd lossF pe k bs
      (trainStep upd st b) (c + 1)
    have happ : List.Chain' (fun a b => a.iterOf ≤ b.iterOf)
        ((if 0 < pe ∧ (c + 1) % pe = 0 then
            [Event.snapshot (c + 1) (((c + 1 : Nat) : ℚ) / (k : ℚ))
              (lossF (trainStep upd st b).params b)]
          else []) ++
         (runIters upd lossF pe k (trainStep upd st b) (c + 1) bs).2.2) := by
      apply chain_iterOf_append (n := c + 1)
      · split <;> simp
      · exact hrest
      · intro e he
        split at he
        · simp only [List.mem_singleton] at he
          subst he
          simp [Event.iterOf]
        · simp at he
      · intro e he
        have := hbounds e he
        omega
    apply List.Chain'.cons'
    · exact happ
    · intro y hy
      have hmem : y ∈ (if 0 < pe ∧ (c + 1) % pe = 0 then
          [Event.snapshot (c + 1) (((c + 1 : Nat) : ℚ) / (k : ℚ))
            (lossF (trainStep upd st b).params b)]
        else []) ++
         (runIters upd lossF pe k (trainStep upd st b) (c + 1) bs).2.2 :=
        List.mem_of_mem_head? hy
      simp only [List.mem_append] at hmem
      rcases hmem with hmem | hmem
      · split at hmem
        · simp only [List.mem_singleton] at hmem
          subst hmem
          simp [Event.iterOf]
        · simp at hmem
      · have := hbounds y hmem
        have hstep : Event.iterOf (Event.step (c + 1)
            (((c + 1 : Nat) : ℚ) / (k : ℚ))) = c + 1 := rfl
        rw [hstep]
        omega

/-! ## Trace lemmas for the epoch loop -/

theorem runOneEpoch_eq (upd lossF : Int → List Sample → Int)
    (evalF : Int → Sample → Int) (pe k : Nat)
    (tb vb : List (List Sample)) (st : TrainerState) (c : Nat) :
    runOneEpoch upd lossF evalF pe k tb vb st c =
      ((runIters upd lossF pe k st c tb).1,
       (runIters upd lossF pe k st c tb).2.1,
       (runIters upd lossF pe k st c tb).2.2 ++
         [Event.evalPass .val (runIters upd lossF pe k st c tb).2.1
           (((runIters upd lossF pe k st c tb).2.1 : ℚ) / (k : ℚ))
           (runEvalPass evalF (runIters upd lossF pe k st c tb).1 vb).2]) := by
  have h : runOneEpoch upd lossF evalF pe k tb vb st c =
      ((runEvalPass evalF (runIters upd lossF pe k st c tb).1 vb).1,
       (runIters upd lossF pe k st c tb).2.1,
       (runIters upd lossF pe k st c tb).2.2 ++
         [Event.evalPass .val (runIters upd lossF pe k st c tb).2.1
           (((runIters upd lossF pe k st c tb).2.1 : ℚ) / (k : ℚ))
           (runEvalPass evalF (runIters upd lossF pe k st c tb).1 vb).2]) :=
    rfl
  rw [h, runEvalPass_state]

theorem runEpochs_zero (upd lossF : Int → List Sample → Int)
    (evalF : Int → Sample → Int) (pe k : Nat)
    (tb vb : List (List Sample)) (st : TrainerState) (c : Nat) :
    runEpochs upd lossF evalF pe k tb vb st c 0 = (st, c, []) := rfl

theorem runEpochs_succ (upd lossF : Int → List Sample → Int)
    (evalF : Int → Sample → Int) (pe k : Nat)
    (tb vb : List (List Sample)) (st : TrainerState) (c : Nat) (e : Nat) :
    runEpochs upd lossF evalF pe k tb vb st c (e + 1) =
      ((runEpochs upd lossF evalF pe k tb vb
          (runOneEpoch upd lossF evalF pe k tb vb st c).1
          (runOneEpoch upd lossF evalF pe k tb vb st c).2.1 e).1,
       (runEpochs upd lossF evalF pe k tb vb
          (runOneEpoch upd lossF evalF pe k tb vb st c).1
          (runOneEpoch upd lossF evalF pe k tb vb st c).2.1 e).2.1,
       (runOneEpoch upd lossF evalF pe k tb vb st c).2.2 ++
         (runEpochs upd lossF evalF pe k tb vb
            (runOneEpoch upd lossF evalF pe k tb vb st c).1
            (runOneEpoch upd lossF evalF pe k tb vb st c).2.1 e).2.2) := rfl

theorem runEpochs_count (upd lossF : Int → List Sample → Int)
    (evalF : Int → Sample → Int) (pe k : Nat)
    (tb vb : List (List Sample)) (E : Nat) :
    ∀ (st : TrainerState) (c : Nat),
    (runEpochs upd lossF evalF pe k tb vb st c E).2.1 = c + E * tb.length := by
  induction E with
  | zero => intro st c; simp [runEpochs_zero]
  | succ e ih =>
    intro st c
    rw [runEpochs_succ, ih, runOneEpoch_eq]
    simp only [runIters_count]
    ring

theorem runEpochs_stepIters (upd lossF : Int → List Sample → Int)
    (evalF : Int → Sample → Int) (pe k : Nat)
    (tb vb : List (List Sample)) (E : Nat) :
    ∀ (st : TrainerState) (c : Nat),
    stepIters (runEpochs upd lossF evalF pe k tb vb st c E).2.2 =
      List.range' (c + 1) (E * tb.length) := by
  induction E with
  | zero => intro st c; simp [runEpochs_zero]
  | succ e ih =>
    intro st c
    rw [runEpochs_succ, runOneEpoch_eq]
    simp only [stepIters_append, stepIters_cons_evalPass, stepIters_nil,
      runIters_stepIters, runIters_count, ih]
    rw [List.append_nil]
    have harr : c + tb.length + 1 = c + 1 + tb.length := by omega
    rw [harr, List.range'_append_1]
    congr 1
    ring

theorem runEpochs_snapIters (upd lossF : Int → List Sample → Int)
    (evalF : Int → Sample → Int) {pe : Nat} (hpe : 0 < pe) (k : Nat)
    (tb vb : List (List Sample)) (E : Nat) :
    ∀ (st : TrainerState) (c : Nat),
    snapIters (runEpochs upd lossF evalF pe k tb vb st c E).2.2 =
      (List.range' (c + 1) (E * tb.length)).filter (fun i => i % pe == 0) := by
  induction E with
  | zero => intro st c; simp [runEpochs_zero]
  | succ e ih =>
    intro st c
    rw [runEpochs_succ, runOneEpoch_eq]
    simp only [snapIters_append, snapIters_cons_evalPass, snapIters_nil,
      runIters_snapIters upd lossF hpe, runIters_count, ih]
    rw [List.append_nil, ← List.filter_append]
    have harr : c + tb.length + 1 = c + 1 + tb.length := by omega
    rw [harr, List.range'_append_1]
    congr 2
    ring

theorem runEpochs_testMetrics (upd lossF : Int → List Sample → Int)
    (evalF : Int → Sample → Int) (pe k : Nat)
    (tb vb : List (List Sample)) (E : Nat) :
    ∀ (st : TrainerState) (c : Nat),
    testMetrics (runEpochs upd lossF evalF pe k tb vb st c E).2.2 = [] := by
  induction E with
  | zero => intro st c; simp [runEpochs_zero]
  | succ e ih =>
    intro st c
    rw [runEpochs_succ, runOneEpoch_eq]
    simp [(runIters_no_evals upd lossF pe k tb st c).2, ih]

theorem runEpochs_valCount (upd lossF : Int → List Sample → Int)
    (evalF : Int → Sample → Int) (pe k : Nat)
    (tb vb : List (List Sample)) (E : Nat) :
    ∀ (st : TrainerState) (c : Nat),
    (valMetrics (runEpochs upd lossF evalF pe k tb vb st c E).2.2).length =
      E := by
  induction E with
  | zero => intro st c; simp [runEpochs_zero]
  | succ e ih =>
    intro st c
    rw [runEpochs_succ, runOneEpoch_eq]
    simp [(runIters_no_evals upd lossF pe k tb st c).1, ih]

theorem runEpochs_prog (upd lossF : Int → List Sample → Int)
    (evalF : Int → Sample → Int) (pe k : Nat)
    (tb vb : List (List Sample)) (E : Nat) :
    ∀ (st : TrainerState) (c : Nat),
    ∀ e ∈ (runEpochs upd lossF evalF pe k tb vb st c E).2.2,
      e.progOf = (e.iterOf : ℚ) / (k : ℚ) := by
  induction E with
  | zero => intro st c e he; simp [runEpochs_zero] at he
  | succ n ih =>
    intro st c e he
    rw [runEpochs_succ, runOneEpoch_eq] at he
    simp only [List.mem_append, List.mem_singleton] at he
    rcases he with (he | he) | he
    · exact runIters_prog upd lossF pe k tb st c e he
    · subst he; rfl
    · exact ih _ _ e he

theorem runEpochs_iter_bounds (upd lossF : Int → List Sample → Int)
    (evalF : Int → Sample → Int) (pe k : Nat)
    (tb vb : List (List Sample)) (E : Nat) :
    ∀ (st : TrainerState) (c : Nat),
    ∀ e ∈ (runEpochs upd lossF evalF pe k tb vb st c E).2.2,
      c ≤ e.iterOf ∧ e.iterOf ≤ c + E * tb.length := by
  induction E with
  | zero => intro st c e he; simp [runEpochs_zero] at he
  | succ n ih =>
    intro st c e he
    rw [runEpochs_succ, runOneEpoch_eq] at he
    simp only [List.mem_append, List.mem_singleton] at he
    have hlen : tb.length ≤ (n + 1) * tb.length := by
      have : 1 * tb.length ≤ (n + 1) * tb.length :=
        Nat.mul_le_mul_right _ (by omega)
      omega
    rcases he with (he | he) | he
    · have := runIters_iter_bounds upd lossF pe k tb st c e he
      omega
    · subst he
      have hval : Event.iterOf (Event.evalPass .val
          (runIters upd lossF pe k st c tb).2.1
          (((runIters upd lossF pe k st c tb).2.1 : ℚ) / (k : ℚ))
          (runEvalPass evalF (runIters upd lossF pe k st c tb).1 vb).2) =
          (runIters upd lossF pe k st c tb).2.1 := rfl
      rw [hval, runIters_count]
      omega
    · have := ih _ _ e he
      simp only [runIters_count] at this
      have harith : (n + 1) * tb.length = tb.length + n * tb.length := by
        ring
      omega

theorem runEpochs_chain (upd lossF : Int → List Sample → Int)
    (evalF : Int → Sample → Int) (pe k : Nat)
    (tb vb : List (List Sample)) (E : Nat) :
    ∀ (st : TrainerState) (c : Nat),
    List.Chain' (fun a b => a.iterOf ≤ b.iterOf)
      (runEpochs upd lossF evalF pe k tb vb st c E).2.2 := by
  induction E with
  | zero => intro st c; simp [runEpochs_zero]
  | succ n ih =>
    intro st c
    rw [runEpochs_succ, runOneEpoch_eq]
    have hval : Event.iterOf (Event.evalPass .val
        (runIters upd lossF pe k st c tb).2.1
        (((runIters upd lossF pe k st c tb).2.1 : ℚ) / (k : ℚ))
        (runEvalPass evalF (runIters upd lossF pe k st c tb).1 vb).2) =
        c + tb.length := by
      simp [Event.iterOf, runIters_count]
    have hepoch : List.Chain' (fun a b => a.iterOf ≤ b.iterOf)
        ((runIters upd lossF pe k st c tb).2.2 ++
          [Event.evalPass .val (runIters upd lossF pe k st c tb).2.1
            (((runIters upd lossF pe k st c tb).2.1 : ℚ) / (k : ℚ))
            (runEvalPass evalF (runIters upd lossF pe k st c tb).1 vb).2]) := by
      apply chain_iterOf_append (n := c + tb.length)
      · exact runIters_chain upd lossF pe k tb st c
      · simp
      · intro e he
        exact (runIters_iter_bounds upd lossF pe k tb st c e he).2
      · intro e he
        simp only [List.mem_singleton] at he
        subst he
        rw [hval]
    apply chain_iterOf_append (n := c + tb.length)
    · exact hepoch
    · exact ih _ _
    · intro e he
      simp only [List.mem_append, List.mem_singleton] at he
      rcases he with he | he
      · exact (runIters_iter_bounds upd lossF pe k tb st c e he).2
      · subst he
        rw [hval]
    · intro e he
      have := (runEpochs_iter_bounds upd lossF evalF pe k tb vb n _ _ e he).1
      simp only [runIters_count] at this
      exact this

theorem runEpochs_lastVal (upd lossF : Int → List Sample → Int)
    (evalF : Int → Sample → Int) (pe k : Nat)
    (tb vb : List (List Sample)) (E : Nat) :
    ∀ (st : TrainerState) (c : Nat), 1 ≤ E →
    (valMetrics (runEpochs upd lossF evalF pe k tb vb st c E).2.2).getLast? =
      some ((runEvalPass evalF
        (runEpochs upd lossF evalF pe k tb vb st c E).1 vb).2) := by
  induction E with
  | zero => intro st c hE; omega
  | succ n ih =>
    intro st c _
    match n with
    | 0 =>
      rw [runEpochs_succ, runEpochs_zero, runOneEpoch_eq]
      simp [(runIters_no_evals upd lossF pe k tb st c).1]
    | m + 1 =>
      rw [runEpochs_succ, runOneEpoch_eq]
      have hrest := ih (runIters upd lossF pe k st c tb).1
        (runIters upd lossF pe k st c tb).2.1 (by omega)
      simp only [valMetrics_append, valMetrics_cons_val, valMetrics_nil,
        (runIters_no_evals upd lossF pe k tb st c).1, List.nil_append,
        List.cons_append, List.append_nil]
      rw [← List.singleton_append, List.getLast?_append, hrest]
      rfl

theorem chain_map_progOf (k : Nat) : ∀ (evs : List Event),
    List.Chain' (fun a b => a.iterOf ≤ b.iterOf) evs →
    (∀ e ∈ evs, e.progOf = (e.iterOf : ℚ) / (k : ℚ)) →
    List.Chain' (fun p q : ℚ => p ≤ q) (evs.map Event.progOf) := by
  intro evs
  induction evs with
  | nil => intro _ _; simp
  | cons a l ih =>
    intro hch hprog
    match l with
    | [] => simp
    | b :: l' =>
      rw [List.chain'_cons] at hch
      simp only [List.map_cons]
      rw [List.chain'_cons]
      constructor
      · rw [hprog a (by simp), hprog b (by simp)]
        rcases Nat.eq_zero_or_pos k with hk | hk
        · subst hk
          simp
        · have hkq : (0 : ℚ) < (k : ℚ) := by exact_mod_cast hk
          exact (div_le_div_iff_of_pos_right hkq).mpr (Nat.cast_le.mpr hch.1)
      · have := ih hch.2 (fun e he => hprog e (by simp [he]))
        simpa using this

theorem runEvalPass_metric_congr (f : Int → Sample → Int) :
    ∀ (bs : List (List Sample)) (s1 s2 : TrainerState), s1.params = s2.params →
    (runEvalPass f s1 bs).2 = (runEvalPass f s2 bs).2 := by
  intro bs
  induction bs with
  | nil => intro s1 s2 h; rfl
  | cons b bs ih =>
    intro s1 s2 h
    simp only [runEvalPass_cons]
    rw [h, ih s1 s2 h]

theorem trainBody_eq (cfg : RunConfig) (upd lossF : Int → List Sample → Int)
    (evalF : Int → Sample → Int) (td vd ted : List Sample)
    (st : TrainerState) :
    trainBody cfg upd lossF evalF td vd ted st =
      ((runEpochs upd lossF evalF cfg.print_every
          (chunkList cfg.optim.batch_size td).length
          (chunkList cfg.optim.batch_size td)
          (chunkList cfg.optim.eval_batch_size vd) st 0
          cfg.optim.max_epochs).1,
       (runEpochs upd lossF evalF cfg.print_every
          (chunkList cfg.optim.batch_size td).length
          (chunkList cfg.optim.batch_size td)
          (chunkList cfg.optim.eval_batch_size vd) st 0
          cfg.optim.max_epochs).2.2 ++
         [Event.evalPass .test
           (runEpochs upd lossF evalF cfg.print_every
              (chunkList cfg.optim.batch_size td).length
              (chunkList cfg.optim.batch_size td)
              (chunkList cfg.optim.eval_batch_size vd) st 0
              cfg.optim.max_epochs).2.1
           (((runEpochs upd lossF evalF cfg.print_every
                (chunkList cfg.optim.batch_size td).length
                (chunkList cfg.optim.batch_size td)
                (chunkList cfg.optim.eval_batch_size vd) st 0
                cfg.optim.max_epochs).2.1 : ℚ) /
             ((chunkList cfg.optim.batch_size td).length : ℚ))
           (runEvalPass evalF
             (runEpochs upd lossF evalF cfg.print_every
                (chunkList cfg.optim.batch_size td).length
                (chunkList cfg.optim.batch_size td)
                (chunkList cfg.optim.eval_batch_size vd) st 0
                cfg.optim.max_epochs).1
             (chunkList cfg.optim.eval_batch_size ted)).2]) := by
  have h : trainBody cfg upd lossF evalF td vd ted st =
      ((runEvalPass evalF
          (runEpochs upd lossF evalF cfg.print_every
            (chunkList cfg.optim.batch_size td).length
            (chunkList cfg.optim.batch_size td)
            (chunkList cfg.optim.eval_batch_size vd) st 0
            cfg.optim.max_epochs).1
          (chunkList cfg.optim.eval_batch_size ted)).1,
       (runEpochs upd lossF evalF cfg.print_every
          (chunkList cfg.optim.batch_size td).length
          (chunkList cfg.optim.batch_size td)
          (chunkList cfg.optim.eval_batch_size vd) st 0
          cfg.optim.max_epochs).2.2 ++
         [Event.evalPass .test
           (runEpochs upd lossF evalF cfg.print_every
              (chunkList cfg.optim.batch_size td).length
              (chunkList cfg.optim.batch_size td)
              (chunkList cfg.optim.eval_batch_size vd) st 0
              cfg.optim.max_epochs).2.1
           (((runEpochs upd lossF evalF cfg.print_every
                (chunkList cfg.optim.batch_size td).length
                (chunkList cfg.optim.batch_size td)
                (chunkList cfg.optim.eval_batch_size vd) st 0
                cfg.optim.max_epochs).2.1 : ℚ) /
             ((chunkList cfg.optim.batch_size td).length : ℚ))
           (runEvalPass evalF
             (runEpochs upd lossF evalF cfg.print_every
                (chunkList cfg.optim.batch_size td).length
                (chunkList cfg.optim.batch_size td)
                (chunkList cfg.optim.eval_batch_size vd) st 0
                cfg.optim.max_epochs).1
             (chunkList cfg.optim.eval_batch_size ted)).2]) := rfl
  rw [h, runEvalPass_state]

/-- C2: with `max_epochs = 1` and a deterministic source of N samples
and batch size B, `train()` performs exactly `ceil(N/B)`
training-iteration opportunities (step events with iteration numbers
1, 2, …, ceil(N/B)), fractional epoch progress is
`completed / iterations_per_epoch` throughout (so it rises from near 0
to exactly 1.0), and after the epoch budget one validation pass and
then one test-evaluation pass run, each recording a metrics snapshot
with progress exactly 1. -/
theorem trainRun_epoch_budget_one (reg : Registry) (cfg : RunConfig)
    (upd lossF : Int → List Sample → Int) (evalF : Int → Sample → Int)
    (trainData valData testData : List Sample) (st : TrainerState)
    (hm : reg.models.contains cfg.model_name = true)
    (hd : reg.datasets.contains cfg.task.dataset = true)
    (hB : 0 < cfg.optim.batch_size)
    (hE : cfg.optim.max_epochs = 1)
    (hN : trainData ≠ []) :
    ∃ stF evs,
      trainRun reg cfg upd lossF evalF trainData valData testData st =
        Except.ok (stF, evs) ∧
      stepIters evs = List.range' 1
        ((trainData.length + cfg.optim.batch_size - 1) /
          cfg.optim.batch_size) ∧
      (stepIters evs).length =
        (trainData.length + cfg.optim.batch_size - 1) /
          cfg.optim.batch_size ∧
      (∀ e ∈ evs, e.progOf = (e.iterOf : ℚ) /
        (((trainData.length + cfg.optim.batch_size - 1) /
          cfg.optim.batch_size : Nat) : ℚ)) ∧
      ∃ body mval mtest,
        evs = body ++
          [Event.evalPass .val
            ((trainData.length + cfg.optim.batch_size - 1) /
              cfg.optim.batch_size) 1 mval,
           Event.evalPass .test
            ((trainData.length + cfg.optim.batch_size - 1) /
              cfg.optim.batch_size) 1 mtest] ∧
        valMetrics body = [] ∧ testMetrics body = [] := by
  have hm' : cfg.model_name ∈ reg.models := by simpa using hm
  have hd' : cfg.task.dataset ∈ reg.datasets := by simpa using hd
  have hrun : trainRun reg cfg upd lossF evalF trainData valData testData st =
      Except.ok (trainBody cfg upd lossF evalF trainData valData testData st) := by
    simp [trainRun, hm', hd']
  have hbody := trainBody_eq cfg upd lossF evalF trainData valData testData st
  rw [hE] at hbody
  set B := cfg.optim.batch_size with hBs
  set pe := cfg.print_every with hpes
  set tb := chunkList B trainData with htbs
  set k := tb.length with hks
  set vb := chunkList cfg.optim.eval_batch_size valData with hvbs
  set tsb := chunkList cfg.optim.eval_batch_size testData with htsbs
  have hkc : k = (trainData.length + B - 1) / B := by
    rw [hks, htbs]
    exact chunkList_length hB trainData
  have hNpos : 0 < trainData.length := List.length_pos.mpr hN
  have hkpos : 0 < k := by
    rw [hkc]
    have h1 : 1 ≤ (trainData.length + B - 1) / B := by
      rw [Nat.le_div_iff_mul_le hB]
      omega
    omega
  have hone : (k : ℚ) / (k : ℚ) = 1 := div_self (by exact_mod_cast hkpos.ne')
  have hc1 : (runIters upd lossF pe k st 0 tb).2.1 = k := by
    rw [runIters_count]
    omega
  refine ⟨(trainBody cfg upd lossF evalF trainData valData testData st).1,
    (trainBody cfg upd lossF evalF trainData valData testData st).2,
    hrun, ?_, ?_, ?_, ?_⟩
  · rw [hbody, ← hkc]
    simp only [stepIters_append, stepIters_cons_evalPass, stepIters_nil,
      runEpochs_stepIters, List.append_nil, Nat.one_mul]
  · rw [hbody, ← hkc]
    simp only [stepIters_append, stepIters_cons_evalPass, stepIters_nil,
      runEpochs_stepIters, List.append_nil, Nat.one_mul,
      List.length_range']
  · rw [hbody, ← hkc]
    intro e he
    simp only [List.mem_append, List.mem_singleton] at he
    rcases he with he | he
    · exact runEpochs_prog upd lossF evalF pe k tb vb 1 st 0 e he
    · subst he
      simp only [Event.progOf, Event.iterOf]
  · have hep1 : runEpochs upd lossF evalF pe k tb vb st 0 1 =
        ((runIters upd lossF pe k st 0 tb).1, k,
         (runIters upd lossF pe k st 0 tb).2.2 ++
           [Event.evalPass .val k 1
             (runEvalPass evalF (runIters upd lossF pe k st 0 tb).1 vb).2]) := by
      rw [runEpochs_succ, runEpochs_zero, runOneEpoch_eq]
      simp only [List.append_nil, hc1, hone]
    have hsplit : (trainBody cfg upd lossF evalF trainData valData
        testData st).2 =
        (runIters upd lossF pe k st 0 tb).2.2 ++
          [Event.evalPass .val ((trainData.length + B - 1) / B) 1
            (runEvalPass evalF (runIters upd lossF pe k st 0 tb).1 vb).2,
           Event.evalPass .test ((trainData.length + B - 1) / B) 1
            (runEvalPass evalF (runIters upd lossF pe k st 0 tb).1 tsb).2] := by
      rw [hbody, hep1, ← hkc]
      simp only [hone, List.append_assoc, List.cons_append, List.nil_append]
    refine ⟨(runIters upd lossF pe k st 0 tb).2.2, _, _, hsplit, ?_, ?_⟩
    · exact (runIters_no_evals upd lossF pe k tb st 0).1
    · exact (runIters_no_evals upd lossF pe k tb st 0).2

/-- Witness for C2: the notebook configuration over a three-sample
source (one batch, one epoch). -/
theorem trainRun_epoch_budget_one_witness :
    ∃ stF evs,
      trainRun reg0 cfg0 upd0 loss0 eval0 data0 data0 data0 st0 =
        Except.ok (stF, evs) ∧
      stepIters evs = List.range' 1
        ((data0.length + cfg0.optim.batch_size - 1) /
          cfg0.optim.batch_size) ∧
      (stepIters evs).length =
        (data0.length + cfg0.optim.batch_size - 1) /
          cfg0.optim.batch_size ∧
      (∀ e ∈ evs, e.progOf = (e.iterOf : ℚ) /
        (((data0.length + cfg0.optim.batch_size - 1) /
          cfg0.optim.batch_size : Nat) : ℚ)) ∧
      ∃ body mval mtest,
        evs = body ++
          [Event.evalPass .val
            ((data0.length + cfg0.optim.batch_size - 1) /
              cfg0.optim.batch_size) 1 mval,
           Event.evalPass .test
            ((data0.length + cfg0.optim.batch_size - 1) /
              cfg0.optim.batch_size) 1 mtest] ∧
        valMetrics body = [] ∧ testMetrics body = [] :=
  trainRun_epoch_budget_one reg0 cfg0 upd0 loss0 eval0 data0 data0 data0 st0
    (by decide) (by decide) (by decide) (by decide) (by decide)

/-- C8: during `train()`, a metrics snapshot is emitted exactly at the
training iterations divisible by `print_every`; every event's
fractional epoch progress equals
`completed_iterations / iterations_per_epoch`; the progress values are
monotonically non-decreasing along the whole trace, incrementing across
epoch boundaries without resetting; and the last recorded progress is
exactly the epoch budget. -/
theorem trainRun_logging_contract (reg : Registry) (cfg : RunConfig)
    (upd lossF : Int → List Sample → Int) (evalF : Int → Sample → Int)
    (trainData valData testData : List Sample) (st : TrainerState)
    (hm : reg.models.contains cfg.model_name = true)
    (hd : reg.datasets.contains cfg.task.dataset = true)
    (hB : 0 < cfg.optim.batch_size)
    (hpe : 0 < cfg.print_every)
    (hN : trainData ≠ []) :
    ∃ stF evs,
      trainRun reg cfg upd lossF evalF trainData valData testData st =
        Except.ok (stF, evs) ∧
      snapIters evs = (List.range' 1 (cfg.optim.max_epochs *
          ((trainData.length + cfg.optim.batch_size - 1) /
            cfg.optim.batch_size))).filter
        (fun i => i % cfg.print_every == 0) ∧
      (∀ e ∈ evs, e.progOf = (e.iterOf : ℚ) /
        (((trainData.length + cfg.optim.batch_size - 1) /
          cfg.optim.batch_size : Nat) : ℚ)) ∧
      List.Chain' (fun p q : ℚ => p ≤ q) (evs.map Event.progOf) ∧
      (evs.map Event.progOf).getLast? =
        some (cfg.optim.max_epochs : ℚ) := by
  have hm' : cfg.model_name ∈ reg.models := by simpa using hm
  have hd' : cfg.task.dataset ∈ reg.datasets := by simpa using hd
  have hrun : trainRun reg cfg upd lossF evalF trainData valData testData st =
      Except.ok (trainBody cfg upd lossF evalF trainData valData testData st) := by
    simp [trainRun, hm', hd']
  have hbody := trainBody_eq cfg upd lossF evalF trainData valData testData st
  set B := cfg.optim.batch_size with hBs
  set pe := cfg.print_every with hpes
  set E := cfg.optim.max_epochs with hEs
  set tb := chunkList B trainData with htbs
  set k := tb.length with hks
  set vb := chunkList cfg.optim.eval_batch_size valData with hvbs
  set tsb := chunkList cfg.optim.eval_batch_size testData with htsbs
  have hkc : k = (trainData.length + B - 1) / B := by
    rw [hks, htbs]
    exact chunkList_length hB trainData
  have hNpos : 0 < trainData.length := List.length_pos.mpr hN
  have hkpos : 0 < k := by
    rw [hkc]
    have h1 : 1 ≤ (trainData.length + B - 1) / B := by
      rw [Nat.le_div_iff_mul_le hB]
      omega
    omega
  have hcE : (runEpochs upd lossF evalF pe k tb vb st 0 E).2.1 = E * k := by
    rw [runEpochs_count, ← hks]
    omega
  have hprog : ∀ e ∈ (trainBody cfg upd lossF evalF trainData valData
      testData st).2, e.progOf = (e.iterOf : ℚ) / (k : ℚ) := by
    rw [hbody]
    intro e he
    simp only [List.mem_append, List.mem_singleton] at he
    rcases he with he | he
    · exact runEpochs_prog upd lossF evalF pe k tb vb E st 0 e he
    · subst he
      simp only [Event.progOf, Event.iterOf]
  have hchain : List.Chain' (fun a b => a.iterOf ≤ b.iterOf)
      (trainBody cfg upd lossF evalF trainData valData testData st).2 := by
    rw [hbody]
    apply chain_iterOf_append (n := E * k)
    · exact runEpochs_chain upd lossF evalF pe k tb vb E st 0
    · simp
    · intro e he
      have := (runEpochs_iter_bounds upd lossF evalF pe k tb vb E st 0 e he).2
      rw [← hks] at this
      omega
    · intro e he
      simp only [List.mem_singleton] at he
      subst he
      have : Event.iterOf (Event.evalPass .test
          (runEpochs upd lossF evalF pe k tb vb st 0 E).2.1
          (((runEpochs upd lossF evalF pe k tb vb st 0 E).2.1 : ℚ) / (k : ℚ))
          (runEvalPass evalF (runEpochs upd lossF evalF pe k tb vb st 0 E).1
            tsb).2) = (runEpochs upd lossF evalF pe k tb vb st 0 E).2.1 := rfl
      rw [this, hcE]
  refine ⟨(trainBody cfg upd lossF evalF trainData valData testData st).1,
    (trainBody cfg upd lossF evalF trainData valData testData st).2,
    hrun, ?_, ?_, ?_, ?_⟩
  · rw [hbody, ← hkc]
    simp only [snapIters_append, snapIters_cons_evalPass, snapIters_nil,
      runEpochs_snapIters upd lossF evalF hpe, List.append_nil]
  · rw [← hkc]
    exact hprog
  · exact chain_map_progOf k _ hchain hprog
  · rw [hbody]
    rw [List.map_append, List.getLast?_append]
    have hlast : (List.map Event.progOf
        [Event.evalPass .test
          (runEpochs upd lossF evalF pe k tb vb st 0 E).2.1
          (((runEpochs upd lossF evalF pe k tb vb st 0 E).2.1 : ℚ) / (k : ℚ))
          (runEvalPass evalF (runEpochs upd lossF evalF pe k tb vb st 0 E).1
            tsb).2]).getLast? =
        some (((runEpochs upd lossF evalF pe k tb vb st 0 E).2.1 : ℚ) /
          (k : ℚ)) := rfl
    rw [hlast, hcE]
    have hdiv : ((E * k : Nat) : ℚ) / (k : ℚ) = (E : ℚ) := by
      rw [Nat.cast_mul]
      exact mul_div_cancel_right₀ _ (by exact_mod_cast hkpos.ne')
    rw [hdiv]
    rfl

/-- Witness for C8: the notebook configuration over a three-sample
source. -/
theorem trainRun_logging_contract_witness :
    ∃ stF evs,
      trainRun reg0 cfg0 upd0 loss0 eval0 data0 data0 data0 st0 =
        Except.ok (stF, evs) ∧
      snapIters evs = (List.range' 1 (cfg0.optim.max_epochs *
          ((data0.length + cfg0.optim.batch_size - 1) /
            cfg0.optim.batch_size))).filter
        (fun i => i % cfg0.print_every == 0) ∧
      (∀ e ∈ evs, e.progOf = (e.iterOf : ℚ) /
        (((data0.length + cfg0.optim.batch_size - 1) /
          cfg0.optim.batch_size : Nat) : ℚ)) ∧
      List.Chain' (fun p q : ℚ => p ≤ q) (evs.map Event.progOf) ∧
      (evs.map Event.progOf).getLast? =
        some (cfg0.optim.max_epochs : ℚ) :=
  trainRun_logging_contract reg0 cfg0 upd0 loss0 eval0 data0 data0 data0 st0
    (by decide) (by decide) (by decide) (by decide) (by decide)

/-- C10: the evaluation pass is a pure function of the model parameters
and the data source — two passes with equal parameters over identical
batched sources give identical metrics — and in particular, when the
validation and test splits reference the same source, the final
validation metrics of `train()` equal its test metrics value for
value. -/
theorem eval_pass_deterministic (reg : Registry) (cfg : RunConfig)
    (upd lossF : Int → List Sample → Int) (evalF : Int → Sample → Int)
    (trainData valData testData : List Sample) (st : TrainerState)
    (hm : reg.models.contains cfg.model_name = true)
    (hd : reg.datasets.contains cfg.task.dataset = true)
    (hE : 1 ≤ cfg.optim.max_epochs)
    (hsame : valData = testData) :
    (∀ (f : Int → Sample → Int) (s1 s2 : TrainerState)
        (bs : List (List Sample)), s1.params = s2.params →
        (runEvalPass f s1 bs).2 = (runEvalPass f s2 bs).2) ∧
    ∃ stF evs m,
      trainRun reg cfg upd lossF evalF trainData valData testData st =
        Except.ok (stF, evs) ∧
      (valMetrics evs).getLast? = some m ∧
      testMetrics evs = [m] := by
  refine ⟨fun f s1 s2 bs h => runEvalPass_metric_congr f bs s1 s2 h, ?_⟩
  subst hsame
  have hm' : cfg.model_name ∈ reg.models := by simpa using hm
  have hd' : cfg.task.dataset ∈ reg.datasets := by simpa using hd
  have hrun : trainRun reg cfg upd lossF evalF trainData valData valData st =
      Except.ok (trainBody cfg upd lossF evalF trainData valData valData st) := by
    simp [trainRun, hm', hd']
  have hbody := trainBody_eq cfg upd lossF evalF trainData valData valData st
  set B := cfg.optim.batch_size with hBs
  set pe := cfg.print_every with hpes
  set E := cfg.optim.max_epochs with hEs
  set tb := chunkList B trainData with htbs
  set k := tb.length with hks
  set vb := chunkList cfg.optim.eval_batch_size valData with hvbs
  refine ⟨(trainBody cfg upd lossF evalF trainData valData valData st).1,
    (trainBody cfg upd lossF evalF trainData valData valData st).2,
    (runEvalPass evalF (runEpochs upd lossF evalF pe k tb vb st 0 E).1
      vb).2, hrun, ?_, ?_⟩
  · rw [hbody]
    simp only [valMetrics_append, valMetrics_cons_test, valMetrics_nil,
      List.append_nil]
    exact runEpochs_lastVal upd lossF evalF pe k tb vb E st 0 hE
  · rw [hbody]
    simp only [testMetrics_append, testMetrics_cons_test, testMetrics_nil,
      List.nil_append, runEpochs_testMetrics]

/-- Witness for C10: the notebook configuration, validation and test
splits referencing the same source. -/
theorem eval_pass_deterministic_witness :
    (∀ (f : Int → Sample → Int) (s1 s2 : TrainerState)
        (bs : List (List Sample)), s1.params = s2.params →
        (runEvalPass f s1 bs).2 = (runEvalPass f s2 bs).2) ∧
    ∃ stF evs m,
      trainRun reg0 cfg0 upd0 loss0 eval0 data0 data0 data0 st0 =
        Except.ok (stF, evs) ∧
      (valMetrics evs).getLast? = some m ∧
      testMetrics evs = [m] :=
  eval_pass_deterministic reg0 cfg0 upd0 loss0 eval0 data0 data0 data0 st0
    (by decide) (by decide) (by decide) rfl

end OCP
